import Mathlib

/-!
Shallow embedding of the RAG core in `rag_module/services.py`.

Modelling conventions:
- Python floats are modelled as real numbers; `x ** 0.5` becomes `Real.sqrt`.
- The in-memory vector index (`LocalIndex`) stores its records in insertion
  order, exactly as the Python list `self._vectors` does.
- The Python stable sort `results.sort(key=lambda m: m.score, reverse=True)`
  is modelled as sorting by the lexicographic key (score descending, then
  insertion position ascending), which is the specification of a stable
  descending sort.
- External collaborators (the SHA-256 digest from `hashlib`, the remote
  embedding and generation services, wall-clock time, UUIDs) are modelled as
  explicit parameters, since their behaviour is outside this repository.
-/

/-- Metadata stored with each vector, mirroring the dict
`{"text": chunk, "pdf_id": pdf_id}` built in `process_and_embed`. A missing
`pdf_id` key is modelled as `none`. -/
structure Metadata where
  text : String
  pdf_id : Option String
deriving DecidableEq

/-- One entry of `LocalIndex._vectors`: the dict
`{"id": ..., "values": ..., "metadata": ...}`. -/
structure IndexRecord where
  id : String
  values : List ℝ
  metadata : Metadata

/-- The `_Match` class: a metadata projection plus a similarity score. -/
structure QueryMatch where
  metadata : Metadata
  score : ℝ

/-- A metadata filter of the form `{"pdf_id": {"$eq": ..., "$in": ...}}`, as
interpreted by `LocalIndex.query`. Either condition may be absent. -/
structure PdfFilter where
  eq : Option String
  mem : Option (List String)

/-- Decision of whether a record with the given `pdf_id` metadata survives the
filter checks in `LocalIndex.query` (lines 63 to 69): with a filter present,
the record is skipped when the `$eq` value differs from its `pdf_id`, or when
its `pdf_id` is not an element of the `$in` list. -/
def matchesFilter : Option PdfFilter → Option String → Bool
  | none, _ => true
  | some f, pid =>
    (match f.eq with
     | some e => pid == some e
     | none => true) &&
    (match f.mem with
     | some l => (match pid with
                  | some p => l.contains p
                  | none => false)
     | none => true)

/-- Embedding of `LocalIndex.upsert`, whose body is
`self._vectors.extend(vectors)`: the new records are appended to the stored
list. -/
def upsert (st vs : List IndexRecord) : List IndexRecord := st ++ vs

/-- Embedding of `LocalIndex._cosine`: returns 0 when either vector is empty
or the lengths differ; otherwise the dot product divided by the product of
the norms, where a zero norm is replaced by 1 (the Python `or 1.0`). -/
noncomputable def cosine (a b : List ℝ) : ℝ :=
  if a.length = 0 ∨ b.length = 0 ∨ a.length ≠ b.length then 0
  else
    (List.zipWith (fun x y => x * y) a b).sum /
      ((if Real.sqrt ((a.map fun x => x * x).sum) = 0 then 1
        else Real.sqrt ((a.map fun x => x * x).sum)) *
       (if Real.sqrt ((b.map fun x => x * x).sum) = 0 then 1
        else Real.sqrt ((b.map fun x => x * x).sum)))

/-- The candidate matches built by the loop in `LocalIndex.query`, in
insertion order: every stored record passing the filter contributes a match
carrying its metadata and its cosine score against the query vector. -/
noncomputable def scoredCandidates (st : List IndexRecord) (v : List ℝ)
    (f : Option PdfFilter) : List QueryMatch :=
  (st.filter fun r => matchesFilter f r.metadata.pdf_id).map
    fun r => ⟨r.metadata, cosine v r.values⟩

/-- Ordering used to model the Python stable descending sort
`results.sort(key=lambda m: m.score, reverse=True)`: higher score first, ties
broken by the original position. -/
abbrev rankRel : (ℕ × QueryMatch) → (ℕ × QueryMatch) → Prop :=
  fun a b => b.2.score < a.2.score ∨ (b.2.score = a.2.score ∧ a.1 ≤ b.1)

noncomputable instance : DecidableRel rankRel :=
  fun _ _ => inferInstanceAs (Decidable (_ ∨ _))

instance : IsTotal (ℕ × QueryMatch) rankRel where
  total a b := by
    rcases lt_trichotomy b.2.score a.2.score with h | h | h
    · exact Or.inl (Or.inl h)
    · rcases Nat.le_total a.1 b.1 with hi | hi
      · exact Or.inl (Or.inr ⟨h, hi⟩)
      · exact Or.inr (Or.inr ⟨h.symm, hi⟩)
    · exact Or.inr (Or.inl h)

instance : IsTrans (ℕ × QueryMatch) rankRel where
  trans a b c hab hbc := by
    rcases hab with h1 | ⟨h1, h2⟩ <;> rcases hbc with h3 | ⟨h3, h4⟩
    · exact Or.inl (h3.trans h1)
    · exact Or.inl (lt_of_eq_of_lt h3 h1)
    · exact Or.inl (lt_of_lt_of_eq h3 h1)
    · exact Or.inr ⟨h3.trans h1, h2.trans h4⟩

/-- The fully sorted candidate list of `LocalIndex.query`, with every
candidate tagged by its insertion position. -/
noncomputable def rankMatches (st : List IndexRecord) (v : List ℝ)
    (f : Option PdfFilter) : List (ℕ × QueryMatch) :=
  List.insertionSort rankRel (scoredCandidates st v f).enum

/-- Embedding of `LocalIndex.query`: score every record passing the filter,
sort by descending score (stable), and return the first `top_k` matches. -/
noncomputable def query (st : List IndexRecord) (v : List ℝ) (top_k : ℕ)
    (f : Option PdfFilter) : List QueryMatch :=
  ((rankMatches st v f).map Prod.snd).take top_k

lemma rankMatches_perm (st : List IndexRecord) (v : List ℝ)
    (f : Option PdfFilter) :
    List.Perm (rankMatches st v f) (scoredCandidates st v f).enum :=
  List.perm_insertionSort rankRel _

lemma rankMatches_pairwise (st : List IndexRecord) (v : List ℝ)
    (f : Option PdfFilter) : (rankMatches st v f).Pairwise rankRel :=
  List.sorted_insertionSort rankRel _

lemma map_snd_rankMatches_perm (st : List IndexRecord) (v : List ℝ)
    (f : Option PdfFilter) :
    List.Perm ((rankMatches st v f).map Prod.snd) (scoredCandidates st v f) :=
  (List.enum_map_snd (scoredCandidates st v f)) ▸
    (rankMatches_perm st v f).map Prod.snd

lemma length_scoredCandidates (st : List IndexRecord) (v : List ℝ)
    (f : Option PdfFilter) :
    (scoredCandidates st v f).length =
      (st.filter fun r => matchesFilter f r.metadata.pdf_id).length := by
  simp [scoredCandidates]

lemma query_length (st : List IndexRecord) (v : List ℝ) (k : ℕ)
    (f : Option PdfFilter) :
    (query st v k f).length =
      min k (st.filter fun r => matchesFilter f r.metadata.pdf_id).length := by
  rw [query, List.length_take, List.length_map,
    (rankMatches_perm st v f).length_eq, List.enum_length,
    length_scoredCandidates]

/-- Embedding of `_ensure_dim` restricted to list inputs (the non-list branch
re-embeds the printed value and is outside the scope of the vector claims):
return the vector unchanged when its length already matches, truncate when it
is longer, and pad with zeros when it is shorter. -/
def ensure_dim (v : List ℝ) (dim : ℕ) : List ℝ :=
  if v.length = dim then v
  else if dim < v.length then v.take dim
  else v ++ List.replicate (dim - v.length) 0

/-- Embedding of `_cheap_embed`. The SHA-256 digest of the content is
modelled by the parameter `digestFn`, a fixed deterministic function from the
content to its digest bytes; `hashlib` guarantees a 32 byte digest, which
theorems assume as a hypothesis. Each output component `i` is
`(data[i % len(data)] + (i * 31 % 256)) / 255.0`, and the resulting vector is
L2 normalized, a zero norm being replaced by 1 (the Python `or 1.0`). -/
noncomputable def cheap_embed (digestFn : String → List ℕ) (content : String)
    (dim : ℕ) : List ℝ :=
  let data := digestFn content
  let arr : List ℝ := (List.range dim).map
    fun i => (((data.getD (i % data.length) 0 : ℕ) : ℝ) + ((i * 31 % 256 : ℕ) : ℝ)) / 255
  let norm := Real.sqrt ((arr.map fun x => x * x).sum)
  arr.map fun x => x / (if norm = 0 then 1 else norm)

/-- L2 norm of a vector, as computed by the Python expression
`sum(v*v for v in arr) ** 0.5`. -/
noncomputable def l2norm (v : List ℝ) : ℝ :=
  Real.sqrt ((v.map fun x => x * x).sum)

/-- Embedding of `calculate_confidence_score`: base confidence is the context
similarity, a length factor penalizes answers shorter than 50 or longer than
1000 characters, and the product is clamped to 1. -/
noncomputable def calculate_confidence_score (context_similarity : ℝ)
    (answer_length : ℕ) : ℝ :=
  min (context_similarity *
    (if answer_length < 50 then (answer_length : ℝ) / 50
     else if 1000 < answer_length then 1000 / (answer_length : ℝ)
     else 1)) 1

/-- Length factor written exactly as the specification words it, for
comparison with the source definition. -/
noncomputable def spec_length_factor (n : ℕ) : ℝ :=
  if 50 ≤ n ∧ n ≤ 1000 then 1
  else if n < 50 then (n : ℝ) / 50
  else 1000 / (n : ℝ)

/-- Model of the Python `round(x, 3)` used for the reported confidence. -/
noncomputable def roundTo3 (x : ℝ) : ℝ := ((round (x * 1000) : ℤ) : ℝ) / 1000

/-- Model of the Python `str.split()` with no argument: split on whitespace
runs and drop empty pieces. Used for the rough token counts. -/
def pySplitWs (s : String) : List String :=
  (s.split Char.isWhitespace).filter fun t => t ≠ ""

/-- A Python value appearing in a returned dict: a string, a float, or an
integer. -/
inductive PyVal where
  | s (v : String)
  | f (v : ℝ)
  | i (v : ℤ)

/-- Response object of the generative model as read by `process_query`:
`response.text` plus the two usage counters. -/
structure GenResp where
  text : String
  promptTokens : ℕ
  candTokens : ℕ

/-- Behaviour of the global `index.query` call inside `process_query` when
the local backend is active: a call into `LocalIndex.query` with `top_k = 3`
and an equality filter on `pdf_id`, which never raises. -/
noncomputable def local_query_step (st : List IndexRecord) (pdf_id : String) :
    List ℝ → Except String (List QueryMatch) :=
  fun v => Except.ok (query st v 3 (some ⟨some pdf_id, none⟩))

/-- Embedding of `process_query`. The embedding step, the index query step
and the generation step are passed in as `Except` valued behaviours, an
`Except.error` meaning that the step raised; the surrounding
`try ... except` turns any such error into the dict `{"error": str(e)}`.
`hasKey` is the presence of `GOOGLE_API_KEY`; when it is absent the local
branch returns the joined contexts as the answer with zero tokens consumed.
`e1` and `e2` are the measured wall-clock times of the two return points. -/
noncomputable def process_query_model (hasKey : Bool) (dim : ℕ)
    (embed : Except String (List ℝ))
    (queryStep : List ℝ → Except String (List QueryMatch))
    (gen : String → Except String GenResp)
    (question : String) (e1 e2 : ℕ) : List (String × PyVal) :=
  match embed with
  | Except.error m => [("error", PyVal.s m)]
  | Except.ok emb =>
    if emb.length = 0 then [("error", PyVal.s "Embedding failed")]
    else
      match queryStep (ensure_dim emb dim) with
      | Except.error m => [("error", PyVal.s m)]
      | Except.ok ms =>
        let contexts := ms.map fun m => m.metadata.text
        let confidence : ℝ :=
          if ms.length = 0 then 0
          else (ms.map fun m => m.score).sum / (ms.length : ℝ)
        let context_text :=
          if contexts.length = 0 then "No relevant context found."
          else String.intercalate "\n\n" contexts
        if hasKey = false then
          [("answer", PyVal.s context_text),
           ("confidence_score", PyVal.f (roundTo3 confidence)),
           ("tokens_consumed", PyVal.i 0),
           ("tokens_generated",
             PyVal.i (if context_text = "" then 0
                      else ((pySplitWs context_text).length : ℤ))),
           ("response_time_ms", PyVal.i (e1 : ℤ))]
        else
          match gen ("Context:\n" ++ context_text ++ "\n\nQuestion: " ++ question) with
          | Except.error m => [("error", PyVal.s m)]
          | Except.ok resp =>
            [("answer", PyVal.s resp.text),
             ("confidence_score", PyVal.f (roundTo3 confidence)),
             ("tokens_consumed", PyVal.i (resp.promptTokens : ℤ)),
             ("tokens_generated", PyVal.i (resp.candTokens : ℤ)),
             ("response_time_ms", PyVal.i (e2 : ℤ))]

/-- Embedding of `query_documents`. The question embedding and the behaviour
of the generation call are parameters; `runId` models the generated UUID and
`rt` the measured elapsed time. Any exception raised inside the body is
re-raised by the outer handler as `Error processing query: ...`, after the
best-effort metrics submission (which never alters the result and is not
modelled). -/
noncomputable def query_documents_model (st : List IndexRecord) (dim : ℕ)
    (qEmb : List ℝ) (doc_ids : List String)
    (gen : String → Except String String) (question : String)
    (runId : String) (rt : ℕ) : Except String (List (String × PyVal)) :=
  if qEmb.length = 0 then
    Except.error "Error processing query: Failed to generate question embedding"
  else
    let ms := query st (ensure_dim qEmb dim) 5 (some ⟨none, some doc_ids⟩)
    let contexts := ms.map fun m => m.metadata.text
    let maxSim := ms.foldl (fun a m => max a m.score) 0
    if contexts.length = 0 then
      Except.error "Error processing query: No relevant contexts found"
    else
      let prompt :=
        "Based on the following contexts, answer the question. If the answer cannot be found in the contexts, say so.\n\nContexts:\n"
          ++ String.intercalate " " contexts ++ "\n\nQuestion: " ++ question
      match gen prompt with
      | Except.error m => Except.error ("Error processing query: " ++ m)
      | Except.ok answer =>
        Except.ok
          [("run_id", PyVal.s runId), ("answer", PyVal.s answer),
           ("tokens_consumed", PyVal.i ((pySplitWs prompt).length : ℤ)),
           ("tokens_generated", PyVal.i ((pySplitWs answer).length : ℤ)),
           ("response_time_ms", PyVal.i (rt : ℤ)),
           ("confidence_score",
             PyVal.f (calculate_confidence_score maxSim answer.length))]

lemma zipWith_mul_self (v : List ℝ) :
    List.zipWith (fun x y => x * y) v v = v.map fun x => x * x := by
  induction v with
  | nil => simp
  | cons a t ih => simp [ih]

lemma cosine_ne_length (a b : List ℝ) (h : a.length ≠ b.length) :
    cosine a b = 0 := by
  unfold cosine
  rw [if_pos (Or.inr (Or.inr h))]

lemma sum_map_div_sq (l : List ℝ) (n : ℝ) :
    ((l.map fun x => x / n).map fun x => x * x).sum
      = ((l.map fun x => x * x).sum) / (n * n) := by
  induction l with
  | nil => simp
  | cons a t ih =>
    simp only [List.map_cons, List.sum_cons, ih]
    ring

/-- C5: the reconciled vector has length exactly `dim`; when the input is
longer the result is its length `dim` prefix, when shorter it is the input
followed by zeros, and when the lengths already agree it is returned
unchanged. -/
theorem ensure_dim_spec (v : List ℝ) (dim : ℕ) :
    (ensure_dim v dim).length = dim
    ∧ (dim < v.length → ensure_dim v dim = v.take dim)
    ∧ (v.length < dim →
        ensure_dim v dim = v ++ List.replicate (dim - v.length) 0)
    ∧ (v.length = dim → ensure_dim v dim = v) := by
  refine ⟨?_, fun h => ?_, fun h => ?_, fun h => ?_⟩
  · unfold ensure_dim
    split_ifs with h1 h2
    · exact h1
    · simp only [List.length_take]
      omega
    · simp only [List.length_append, List.length_replicate]
      omega
  · unfold ensure_dim
    rw [if_neg (by omega), if_pos h]
  · unfold ensure_dim
    rw [if_neg (by omega), if_neg (by omega)]
  · unfold ensure_dim
    rw [if_pos h]

/-- Witness for C5 at the concrete input `[1]` with target dimension 3. -/
theorem ensure_dim_spec_witness :
    ([(1:ℝ)].length < 3)
    ∧ (ensure_dim [(1:ℝ)] 3).length = 3
    ∧ ensure_dim [(1:ℝ)] 3 = [(1:ℝ)] ++ List.replicate (3 - [(1:ℝ)].length) 0 :=
  ⟨by decide, (ensure_dim_spec [(1:ℝ)] 3).1,
    (ensure_dim_spec [(1:ℝ)] 3).2.2.1 (by decide)⟩

/-- C3: the confidence score equals the specified clamped product of the
similarity and the length factor, lies in the unit interval whenever the
similarity does, is the identity on the similarity at answer length 50, and
vanishes at answer length 0. -/
theorem confidence_score_spec (s : ℝ) (n : ℕ) (h0 : 0 ≤ s) (h1 : s ≤ 1) :
    calculate_confidence_score s n = min (s * spec_length_factor n) 1
    ∧ 0 ≤ calculate_confidence_score s n
    ∧ calculate_confidence_score s n ≤ 1
    ∧ calculate_confidence_score s 50 = s
    ∧ calculate_confidence_score s 0 = 0 := by
  have heq : ∀ m : ℕ,
      (if m < 50 then (m : ℝ) / 50
       else if 1000 < m then 1000 / (m : ℝ) else 1) = spec_length_factor m := by
    intro m
    unfold spec_length_factor
    by_cases ha : m < 50
    · rw [if_pos ha, if_neg (by omega), if_pos ha]
    · by_cases hb : 1000 < m
      · rw [if_neg ha, if_pos hb, if_neg (by omega), if_neg ha]
      · rw [if_neg ha, if_neg hb, if_pos (by omega)]
  have hlf0 : ∀ m : ℕ, 0 ≤ spec_length_factor m := by
    intro m
    unfold spec_length_factor
    split_ifs
    · norm_num
    · positivity
    · positivity
  have hlf1 : ∀ m : ℕ, spec_length_factor m ≤ 1 := by
    intro m
    unfold spec_length_factor
    split_ifs with ha hb
    · norm_num
    · rw [div_le_one (by norm_num)]
      exact_mod_cast Nat.le_of_lt (by omega : m < 50)
    · have hm : (1000 : ℝ) ≤ (m : ℝ) := by exact_mod_cast (by omega : 1000 ≤ m)
      rw [div_le_one (by linarith)]
      exact hm
  have hform : calculate_confidence_score s n = min (s * spec_length_factor n) 1 := by
    unfold calculate_confidence_score
    rw [heq n]
  refine ⟨hform, ?_, ?_, ?_, ?_⟩
  · rw [hform]
    exact le_min (mul_nonneg h0 (hlf0 n)) zero_le_one
  · rw [hform]
    exact min_le_right _ _
  · unfold calculate_confidence_score
    norm_num
    exact h1
  · unfold calculate_confidence_score
    norm_num

/-- Witness for C3 at similarity 0 and answer length 7. -/
theorem confidence_score_spec_witness :
    ((0:ℝ) ≤ 0 ∧ (0:ℝ) ≤ 1)
    ∧ (calculate_confidence_score 0 7 = min (0 * spec_length_factor 7) 1
      ∧ 0 ≤ calculate_confidence_score 0 7
      ∧ calculate_confidence_score 0 7 ≤ 1
      ∧ calculate_confidence_score 0 50 = 0
      ∧ calculate_confidence_score 0 0 = 0) :=
  ⟨⟨le_refl 0, zero_le_one⟩, confidence_score_spec 0 7 (le_refl 0) zero_le_one⟩

/-- C7: with a fixed 32 byte digest function, the local embedding is a
deterministic function of its inputs (two calls with identical text and
dimension give identical output) and its output length always equals the
requested dimension. -/
theorem cheap_embed_deterministic_length (digestFn : String → List ℕ)
    (content : String) (dim : ℕ) (hlen : (digestFn content).length = 32) :
    cheap_embed digestFn content dim = cheap_embed digestFn content dim
    ∧ (cheap_embed digestFn content dim).length = dim := by
  refine ⟨rfl, ?_⟩
  simp [cheap_embed]

/-- Witness for C7 at a constant digest, content `x` and dimension 4. -/
theorem cheap_embed_deterministic_length_witness :
    ((fun _ : String => List.replicate 32 0) "x").length = 32
    ∧ (cheap_embed (fun _ : String => List.replicate 32 0) "x" 4 =
        cheap_embed (fun _ : String => List.replicate 32 0) "x" 4
      ∧ (cheap_embed (fun _ : String => List.replicate 32 0) "x" 4).length = 4) :=
  ⟨by simp, cheap_embed_deterministic_length (fun _ => List.replicate 32 0) "x" 4 (by simp)⟩

/-- C9: the cosine similarity of a vector having a non-zero component with
itself is exactly 1, and the cosine similarity of any pair in which either
operand is empty or the lengths differ is 0. -/
theorem cosine_self_one_and_degenerate_zero :
    (∀ v : List ℝ, (∃ x ∈ v, x ≠ 0) → cosine v v = 1)
    ∧ ∀ a b : List ℝ,
        a = [] ∨ b = [] ∨ a.length ≠ b.length → cosine a b = 0 := by
  constructor
  · intro v hv
    obtain ⟨x, hx, hx0⟩ := hv
    have hne : v ≠ [] := List.ne_nil_of_mem hx
    have hlen : ¬ v.length = 0 := by simpa [List.length_eq_zero] using hne
    have hS : 0 < (v.map fun x => x * x).sum := by
      have hmem : x * x ∈ v.map (fun x => x * x) := List.mem_map_of_mem _ hx
      have hle : x * x ≤ (v.map fun x => x * x).sum := by
        refine List.single_le_sum (fun y hy => ?_) _ hmem
        obtain ⟨z, _, rfl⟩ := List.mem_map.mp hy
        exact mul_self_nonneg z
      have hpos : 0 < x * x := mul_self_pos.mpr hx0
      linarith
    have hsq : ¬ Real.sqrt ((v.map fun x => x * x).sum) = 0 :=
      ne_of_gt (Real.sqrt_pos.mpr hS)
    unfold cosine
    rw [if_neg (by simp [hlen]), zipWith_mul_self, if_neg hsq,
      Real.mul_self_sqrt (le_of_lt hS)]
    exact div_self (ne_of_gt hS)
  · intro a b h
    unfold cosine
    refine if_pos ?_
    rcases h with h | h | h
    · exact Or.inl (by simp [h])
    · exact Or.inr (Or.inl (by simp [h]))
    · exact Or.inr (Or.inr h)

/-- Witness for C9 at the one component vector `[2]` and at an empty first
operand. -/
theorem cosine_self_one_and_degenerate_zero_witness :
    (∃ x ∈ [(2:ℝ)], x ≠ 0)
    ∧ cosine [(2:ℝ)] [(2:ℝ)] = 1
    ∧ cosine ([] : List ℝ) [(2:ℝ)] = 0 :=
  ⟨⟨2, List.mem_singleton.mpr rfl, two_ne_zero⟩,
    cosine_self_one_and_degenerate_zero.1 [(2:ℝ)]
      ⟨2, List.mem_singleton.mpr rfl, two_ne_zero⟩,
    cosine_self_one_and_degenerate_zero.2 [] [(2:ℝ)] (Or.inl rfl)⟩

/-- C8 counterexample: at dimension 0 the local embedding is the empty vector
and at dimension 1 with a digest whose first byte is 0 it is the zero vector;
in both cases the L2 norm is 0, not 1, although the input text is non-empty. -/
theorem cheap_embed_norm_small_dims :
    ("a" ≠ "")
    ∧ ((fun _ : String => List.replicate 32 0) "a").length = 32
    ∧ l2norm (cheap_embed (fun _ : String => List.replicate 32 0) "a" 0) = 0
    ∧ l2norm (cheap_embed (fun _ : String => List.replicate 32 0) "a" 1) = 0
    ∧ (0 : ℝ) ≠ 1 := by
  refine ⟨by decide, by simp, ?_, ?_, by norm_num⟩
  · simp [cheap_embed, l2norm]
  · have harr : cheap_embed (fun _ : String => List.replicate 32 0) "a" 1 = [0] := by
      norm_num [cheap_embed, List.range_succ, Real.sqrt_zero]
    rw [harr]
    norm_num [l2norm, Real.sqrt_zero]

/-- C8 amended: for every 32 byte digest function, non-empty content and
dimension at least 2, the L2 norm of the local embedding is exactly 1 (the
component at position 1 is at least 31/255, so the pre-normalization vector
is never zero). -/
theorem cheap_embed_unit_norm (digestFn : String → List ℕ) (content : String)
    (dim : ℕ) (hlen : (digestFn content).length = 32) (hc : content ≠ "")
    (hdim : 2 ≤ dim) : l2norm (cheap_embed digestFn content dim) = 1 := by
  have key : ∀ arr : List ℝ, 0 < (arr.map fun x => x * x).sum →
      l2norm (arr.map fun x =>
        x / (if Real.sqrt ((arr.map fun x => x * x).sum) = 0 then 1
             else Real.sqrt ((arr.map fun x => x * x).sum))) = 1 := by
    intro arr hS
    have hsqrt : Real.sqrt ((arr.map fun x => x * x).sum) ≠ 0 :=
      ne_of_gt (Real.sqrt_pos.mpr hS)
    rw [if_neg hsqrt]
    unfold l2norm
    rw [sum_map_div_sq, Real.mul_self_sqrt (le_of_lt hS),
      div_self (ne_of_gt hS), Real.sqrt_one]
  have hpos : 0 < (((List.range dim).map
      (fun i => ((((digestFn content).getD (i % (digestFn content).length) 0 : ℕ) : ℝ)
        + ((i * 31 % 256 : ℕ) : ℝ)) / 255)).map fun x => x * x).sum := by
    have h31 : (1 * 31 % 256 : ℕ) = 31 := by norm_num
    have hel : (0:ℝ) < ((((digestFn content).getD (1 % (digestFn content).length) 0 : ℕ) : ℝ)
        + ((1 * 31 % 256 : ℕ) : ℝ)) / 255 := by
      rw [h31]
      positivity
    have hmem : ((((digestFn content).getD (1 % (digestFn content).length) 0 : ℕ) : ℝ)
        + ((1 * 31 % 256 : ℕ) : ℝ)) / 255 ∈ (List.range dim).map
          (fun i => ((((digestFn content).getD (i % (digestFn content).length) 0 : ℕ) : ℝ)
            + ((i * 31 % 256 : ℕ) : ℝ)) / 255) :=
      List.mem_map_of_mem _ (List.mem_range.mpr (by omega))
    have hmem2 := List.mem_map_of_mem (fun x => x * x) hmem
    have hle := List.single_le_sum (fun y hy => ?_) _ hmem2
    · have := mul_pos hel hel
      linarith
    · obtain ⟨z, _, rfl⟩ := List.mem_map.mp hy
      exact mul_self_nonneg z
  simpa only [cheap_embed] using key _ hpos

/-- Witness for the amended C8 at a constant digest, content `a` and
dimension 2. -/
theorem cheap_embed_unit_norm_witness :
    (((fun _ : String => List.replicate 32 0) "a").length = 32
      ∧ "a" ≠ "" ∧ 2 ≤ 2)
    ∧ l2norm (cheap_embed (fun _ : String => List.replicate 32 0) "a" 2) = 1 :=
  ⟨⟨by simp, by decide, le_refl 2⟩,
    cheap_embed_unit_norm (fun _ => List.replicate 32 0) "a" 2 (by simp)
      (by decide) (le_refl 2)⟩

/-- Specification of one `LocalIndex.query` call: the result has exactly
`min top_k candidates` entries, is sorted by non-increasing score, draws each
match from a stored record passing the filter (so a filtered query never
returns a record outside the filter set), consists of top scoring candidates
(every candidate left out scores no higher than any returned match), is empty
when no candidate matches, and the full ranking orders equal scores by
insertion position. -/
def QuerySpec (st : List IndexRecord) (v : List ℝ) (k : ℕ)
    (f : Option PdfFilter) : Prop :=
  (query st v k f).length =
      min k (st.filter fun r => matchesFilter f r.metadata.pdf_id).length
  ∧ (query st v k f).Pairwise (fun a b => b.score ≤ a.score)
  ∧ (∀ m ∈ query st v k f, ∃ r ∈ st,
      matchesFilter f r.metadata.pdf_id = true ∧ m.metadata = r.metadata
      ∧ m.score = cosine v r.values)
  ∧ (∃ rest, List.Perm (query st v k f ++ rest) (scoredCandidates st v f)
      ∧ ∀ a ∈ query st v k f, ∀ b ∈ rest, b.score ≤ a.score)
  ∧ ((st.filter fun r => matchesFilter f r.metadata.pdf_id) = [] →
      query st v k f = [])
  ∧ (rankMatches st v f).Pairwise
      (fun a b => b.2.score < a.2.score ∨ (a.2.score = b.2.score ∧ a.1 < b.1))

/-- C4: the query contract holds for every state, vector, positive cutoff
and optional filter. -/
theorem query_topk_spec (st : List IndexRecord) (v : List ℝ) (k : ℕ)
    (f : Option PdfFilter) (hk : 1 ≤ k) : QuerySpec st v k f := by
  have hpw : ((rankMatches st v f).map Prod.snd).Pairwise
      (fun a b => b.score ≤ a.score) := by
    rw [List.pairwise_map]
    refine (rankMatches_pairwise st v f).imp ?_
    intro a b h
    rcases h with h | ⟨h, _⟩
    · exact le_of_lt h
    · exact le_of_eq h
  refine ⟨query_length st v k f, ?_, ?_, ?_, ?_, ?_⟩
  · exact List.Pairwise.sublist (List.take_sublist k _) hpw
  · intro m hm
    have hm2 : m ∈ (rankMatches st v f).map Prod.snd :=
      List.mem_of_mem_take hm
    have hm3 : m ∈ scoredCandidates st v f :=
      (map_snd_rankMatches_perm st v f).mem_iff.mp hm2
    obtain ⟨r, hr, heq⟩ := List.mem_map.mp hm3
    rw [List.mem_filter] at hr
    exact ⟨r, hr.1, hr.2, by rw [← heq], by rw [← heq]⟩
  · refine ⟨((rankMatches st v f).map Prod.snd).drop k, ?_, ?_⟩
    · rw [query, List.take_append_drop]
      exact map_snd_rankMatches_perm st v f
    · have hsplit := hpw
      rw [← List.take_append_drop k ((rankMatches st v f).map Prod.snd)]
        at hsplit
      exact fun a ha b hb => (List.pairwise_append.mp hsplit).2.2 a ha b hb
  · intro h
    have hsc : scoredCandidates st v f = [] := by
      simp [scoredCandidates, h]
    simp [query, rankMatches, hsc, List.insertionSort]
  · have hnd : ((rankMatches st v f).map Prod.fst).Nodup := by
      rw [((rankMatches_perm st v f).map Prod.fst).nodup_iff]
      exact List.nodup_enum_map_fst _
    have hne : (rankMatches st v f).Pairwise (fun a b => a.1 ≠ b.1) :=
      List.pairwise_map.mp hnd
    refine ((rankMatches_pairwise st v f).and hne).imp ?_
    intro a b h
    rcases h with ⟨h1 | ⟨h1, h2⟩, h3⟩
    · exact Or.inl h1
    · exact Or.inr ⟨h1.symm, lt_of_le_of_ne h2 h3⟩

/-- Witness for C4 at the empty state, empty vector, cutoff 1 and no
filter. -/
theorem query_topk_spec_witness : 1 ≤ 1 ∧ QuerySpec [] [] 1 none :=
  ⟨le_refl 1, query_topk_spec [] [] 1 none (le_refl 1)⟩

/-- C10: whatever the behaviours of the embedding, index and generation
steps (including raising, modelled as `Except.error`), `process_query`
returns a dict that is either exactly `{"error": message}` or has exactly
the five success keys in order. -/
theorem process_query_total_shape (hasKey : Bool) (dim : ℕ)
    (embed : Except String (List ℝ))
    (queryStep : List ℝ → Except String (List QueryMatch))
    (gen : String → Except String GenResp) (question : String) (e1 e2 : ℕ) :
    (∃ m, process_query_model hasKey dim embed queryStep gen question e1 e2
        = [("error", PyVal.s m)])
    ∨ (process_query_model hasKey dim embed queryStep gen question e1 e2).map
        Prod.fst =
      ["answer", "confidence_score", "tokens_consumed", "tokens_generated",
       "response_time_ms"] := by
  rcases embed with m | emb
  · exact Or.inl ⟨m, rfl⟩
  · by_cases hemb : emb.length = 0
    · exact Or.inl ⟨"Embedding failed", by simp [process_query_model, hemb]⟩
    · rcases hq : queryStep (ensure_dim emb dim) with m | ms
      · exact Or.inl ⟨m, by simp [process_query_model, hemb, hq]⟩
      · cases hasKey
        · exact Or.inr (by simp [process_query_model, hemb, hq])
        · rcases hg : gen ("Context:\n"
              ++ (if (ms.map fun m => m.metadata.text).length = 0
                  then "No relevant context found."
                  else String.intercalate "\n\n" (ms.map fun m => m.metadata.text))
              ++ "\n\nQuestion: " ++ question) with m | resp
          · exact Or.inl ⟨m, by simp [process_query_model, hemb, hq, hg]⟩
          · exact Or.inr (by simp [process_query_model, hemb, hq, hg])

/-- C1: evaluation at the failing input. Upserting the same record (id `a`)
twice into an empty local index leaves two stored records with that id, and
a subsequent query with `top_k = 5` returns two matches originating from
that single id, because `LocalIndex.upsert` appends instead of overwriting
by id. -/
theorem upsert_append_bug :
    upsert (upsert [] [⟨"a", [1], ⟨"t", some "d"⟩⟩]) [⟨"a", [1], ⟨"t", some "d"⟩⟩]
      = [⟨"a", [1], ⟨"t", some "d"⟩⟩, ⟨"a", [1], ⟨"t", some "d"⟩⟩]
    ∧ ((upsert (upsert [] [⟨"a", [1], ⟨"t", some "d"⟩⟩])
          [⟨"a", [1], ⟨"t", some "d"⟩⟩]).filter fun r => r.id == "a").length = 2
    ∧ (query (upsert (upsert [] [⟨"a", [1], ⟨"t", some "d"⟩⟩])
        [⟨"a", [1], ⟨"t", some "d"⟩⟩]) [1] 5 none).length = 2 := by
  refine ⟨rfl, rfl, ?_⟩
  rw [query_length]
  simp [upsert, matchesFilter]

/-- C2 counterexample: a concrete query flow invocation (local mode,
`process_query` on an empty index) whose vector index query returns zero
matches yet the operation does not fail: it returns a success shaped dict
whose answer is fabricated from the placeholder context. -/
theorem process_query_zero_matches_no_failure :
    query ([] : List IndexRecord) (ensure_dim [1] 128) 3 (some ⟨some "d", none⟩) = []
    ∧ (process_query_model false 128 (Except.ok [1]) (local_query_step [] "d")
        (fun _ => Except.error "no api key") "q" 0 0).map Prod.fst =
      ["answer", "confidence_score", "tokens_consumed", "tokens_generated",
       "response_time_ms"]
    ∧ List.lookup "answer" (process_query_model false 128 (Except.ok [1])
        (local_query_step [] "d") (fun _ => Except.error "no api key") "q" 0 0)
      = some (PyVal.s "No relevant context found.") := by
  have hq : query ([] : List IndexRecord) (ensure_dim [1] 128) 3
      (some ⟨some "d", none⟩) = [] := by
    simp [query, rankMatches, scoredCandidates, List.insertionSort]
  refine ⟨hq, ?_, ?_⟩
  · simp [process_query_model, local_query_step, hq]
  · simp [process_query_model, local_query_step, hq, List.lookup]

/-- C2 amended: on zero index matches, `query_documents` fails explicitly
with the reason `No relevant contexts found`, while `process_query` does not
fail: it returns a success shaped dict whose answer is the placeholder text
`No relevant context found.`. -/
theorem zero_match_query_flows :
    (∀ (st : List IndexRecord) (dim : ℕ) (qEmb : List ℝ) (ids : List String)
        (g : String → Except String String) (q rid : String) (rt : ℕ),
      qEmb ≠ [] →
      query st (ensure_dim qEmb dim) 5 (some ⟨none, some ids⟩) = [] →
      query_documents_model st dim qEmb ids g q rid rt =
        Except.error "Error processing query: No relevant contexts found")
    ∧ (∀ (st : List IndexRecord) (dim : ℕ) (qEmb : List ℝ)
        (g : String → Except String GenResp) (q pdf : String) (e1 e2 : ℕ),
      qEmb ≠ [] →
      query st (ensure_dim qEmb dim) 3 (some ⟨some pdf, none⟩) = [] →
      (process_query_model false dim (Except.ok qEmb) (local_query_step st pdf)
          g q e1 e2).map Prod.fst =
        ["answer", "confidence_score", "tokens_consumed", "tokens_generated",
         "response_time_ms"]
      ∧ List.lookup "answer" (process_query_model false dim (Except.ok qEmb)
          (local_query_step st pdf) g q e1 e2)
        = some (PyVal.s "No relevant context found.")) := by
  constructor
  · intro st dim qEmb ids g q rid rt hne hq
    have hlen : ¬ qEmb.length = 0 := by
      simpa [List.length_eq_zero] using hne
    simp [query_documents_model, hlen, hq]
  · intro st dim qEmb g q pdf e1 e2 hne hq
    have hlen : ¬ qEmb.length = 0 := by
      simpa [List.length_eq_zero] using hne
    constructor
    · simp [process_query_model, local_query_step, hlen, hq]
    · simp [process_query_model, local_query_step, hlen, hq, List.lookup]

/-- Witness for the amended C2 at the empty index. -/
theorem zero_match_query_flows_witness :
    (([(1:ℝ)] ≠ ([] : List ℝ))
      ∧ query ([] : List IndexRecord) (ensure_dim [1] 128) 5
          (some ⟨none, some ["d"]⟩) = [])
    ∧ query_documents_model [] 128 [1] ["d"] (fun _ => Except.ok "ans") "q" "rid" 7
      = Except.error "Error processing query: No relevant contexts found" := by
  have h1 : ([(1:ℝ)] : List ℝ) ≠ [] := by simp
  have h2 : query ([] : List IndexRecord) (ensure_dim [1] 128) 5
      (some ⟨none, some ["d"]⟩) = [] := by
    simp [query, rankMatches, scoredCandidates, List.insertionSort]
  exact ⟨⟨h1, h2⟩,
    zero_match_query_flows.1 [] 128 [1] ["d"] (fun _ => Except.ok "ans") "q" "rid" 7 h1 h2⟩

/-- C6 amended: in local mode (no remote credential) the returned dict has
`tokens_consumed = 0` and its answer is the retrieved context texts joined
by blank lines, or the placeholder `No relevant context found.` when no
context was retrieved. -/
theorem local_answer_joined_contexts (st : List IndexRecord) (dim : ℕ)
    (qEmb : List ℝ) (g : String → Except String GenResp) (q pdf : String)
    (e1 e2 : ℕ) (hne : qEmb ≠ []) :
    List.lookup "tokens_consumed"
        (process_query_model false dim (Except.ok qEmb)
          (local_query_step st pdf) g q e1 e2) = some (PyVal.i 0)
    ∧ List.lookup "answer"
        (process_query_model false dim (Except.ok qEmb)
          (local_query_step st pdf) g q e1 e2) =
      some (PyVal.s
        (if (query st (ensure_dim qEmb dim) 3 (some ⟨some pdf, none⟩)).map
              (fun m => m.metadata.text) = []
         then "No relevant context found."
         else String.intercalate "\n\n"
           ((query st (ensure_dim qEmb dim) 3 (some ⟨some pdf, none⟩)).map
             fun m => m.metadata.text))) := by
  have hlen : ¬ qEmb.length = 0 := by
    simpa [List.length_eq_zero] using hne
  constructor
  · simp [process_query_model, local_query_step, hlen, List.lookup]
  · by_cases hq : (query st (ensure_dim qEmb dim) 3 (some ⟨some pdf, none⟩)).map
        (fun m => m.metadata.text) = []
    · simp [process_query_model, local_query_step, hlen, List.lookup, hq]
    · have hq2 : ¬ ((query st (ensure_dim qEmb dim) 3
          (some ⟨some pdf, none⟩)).map (fun m => m.metadata.text)).length = 0 := by
        simpa [List.length_eq_zero] using hq
      simp [process_query_model, local_query_step, hlen, List.lookup, hq, hq2]
      intro h
      simp [h] at hq

/-- Witness for the amended C6 at the empty index. -/
theorem local_answer_joined_contexts_witness :
    (([(1:ℝ)] : List ℝ) ≠ [])
    ∧ (List.lookup "tokens_consumed" (process_query_model false 128 (Except.ok [1])
          (local_query_step [] "d") (fun _ => Except.error "e") "q" 0 0)
        = some (PyVal.i 0)
      ∧ List.lookup "answer" (process_query_model false 128 (Except.ok [1])
          (local_query_step [] "d") (fun _ => Except.error "e") "q" 0 0) =
        some (PyVal.s
          (if (query [] (ensure_dim [1] 128) 3 (some ⟨some "d", none⟩)).map
                (fun m => m.metadata.text) = []
           then "No relevant context found."
           else String.intercalate "\n\n"
             ((query [] (ensure_dim [1] 128) 3 (some ⟨some "d", none⟩)).map
               fun m => m.metadata.text)))) :=
  ⟨by simp,
    local_answer_joined_contexts [] 128 [1] (fun _ => Except.error "e") "q" "d" 0 0
      (by simp)⟩

/-- C6 counterexample: with two stored chunks for the document the retrieved
contexts are `alpha` and `beta`; the local mode answer is the blank line
join `alpha\n\nbeta`, which is not the plain concatenation `alphabeta` of
the retrieved context texts, although `tokens_consumed` is 0. -/
theorem local_answer_not_plain_concat :
    (query [⟨"x1", [1], ⟨"alpha", some "d"⟩⟩, ⟨"x2", [0], ⟨"beta", some "d"⟩⟩]
        (ensure_dim [1] 128) 3 (some ⟨some "d", none⟩)).map (fun m => m.metadata.text)
      = ["alpha", "beta"]
    ∧ List.lookup "tokens_consumed" (process_query_model false 128 (Except.ok [1])
        (local_query_step
          [⟨"x1", [1], ⟨"alpha", some "d"⟩⟩, ⟨"x2", [0], ⟨"beta", some "d"⟩⟩] "d")
        (fun _ => Except.error "e") "q" 0 0) = some (PyVal.i 0)
    ∧ List.lookup "answer" (process_query_model false 128 (Except.ok [1])
        (local_query_step
          [⟨"x1", [1], ⟨"alpha", some "d"⟩⟩, ⟨"x2", [0], ⟨"beta", some "d"⟩⟩] "d")
        (fun _ => Except.error "e") "q" 0 0) = some (PyVal.s "alpha\n\nbeta")
    ∧ "alpha\n\nbeta" ≠ String.join ["alpha", "beta"] := by
  have hc1 : cosine (ensure_dim [1] 128) [(1:ℝ)] = 0 :=
    cosine_ne_length _ _ (by norm_num [ensure_dim])
  have hc2 : cosine (ensure_dim [1] 128) [(0:ℝ)] = 0 :=
    cosine_ne_length _ _ (by norm_num [ensure_dim])
  have hsc : scoredCandidates
      [⟨"x1", [1], ⟨"alpha", some "d"⟩⟩, ⟨"x2", [0], ⟨"beta", some "d"⟩⟩]
      (ensure_dim [1] 128) (some ⟨some "d", none⟩)
      = [⟨⟨"alpha", some "d"⟩, 0⟩, ⟨⟨"beta", some "d"⟩, 0⟩] := by
    simp [scoredCandidates, matchesFilter, hc1, hc2]
  have hrr : rankRel (0, ⟨⟨"alpha", some "d"⟩, (0:ℝ)⟩)
      (1, ⟨⟨"beta", some "d"⟩, (0:ℝ)⟩) := Or.inr ⟨rfl, Nat.zero_le 1⟩
  have hrank : rankMatches
      [⟨"x1", [1], ⟨"alpha", some "d"⟩⟩, ⟨"x2", [0], ⟨"beta", some "d"⟩⟩]
      (ensure_dim [1] 128) (some ⟨some "d", none⟩)
      = [(0, ⟨⟨"alpha", some "d"⟩, 0⟩), (1, ⟨⟨"beta", some "d"⟩, 0⟩)] := by
    rw [rankMatches, hsc]
    simp [List.enum, List.enumFrom, List.insertionSort, List.orderedInsert, hrr]
  have hq : query
      [⟨"x1", [1], ⟨"alpha", some "d"⟩⟩, ⟨"x2", [0], ⟨"beta", some "d"⟩⟩]
      (ensure_dim [1] 128) 3 (some ⟨some "d", none⟩)
      = [⟨⟨"alpha", some "d"⟩, 0⟩, ⟨⟨"beta", some "d"⟩, 0⟩] := by
    rw [query, hrank]
    simp
  refine ⟨by rw [hq]; rfl, ?_, ?_, by decide⟩
  · simp [process_query_model, local_query_step, hq, List.lookup]
  · simp [process_query_model, local_query_step, hq, List.lookup]
    decide
